import Mathlib

/-!
Shallow embedding of the SQS input reader from
`internal/impl/aws/input_sqs.go`: the message-handle deadline field, the
in-flight tracker, the ack/refresh loop's batching functions, and the
`Read` delivery path.  Go `time.Time` instants are modelled as integer
nanoseconds since the Unix epoch, `time.Duration` as integer nanoseconds,
and the atomically stored deadline as its raw `int64` value (Unix seconds,
`-1` meaning deleted), exactly as in the source.
-/

/-- One second in nanoseconds (`time.Second`). -/
def nsPerSec : Int := 1000000000

/-- A Go `time.Time` instant, as nanoseconds since the Unix epoch. -/
abbrev GoTime := Int

/-- A Go `time.Duration`, in nanoseconds. -/
abbrev GoDuration := Int

/-- Model of `time.Time.Unix`: whole seconds since the epoch.  Go normalises a time
into `(sec, nsec)` with `0 ≤ nsec < 10^9` and returns `sec`, which is the
floor of the nanosecond instant divided by `10^9`. -/
def timeUnix (t : GoTime) : Int := Int.fdiv t nsPerSec

/-- The raw value held by the atomic `sqsMessageDeadline` field: Unix
seconds of when the message timeout expires, or `-1` when the message has
been deleted. -/
abbrev sqsMessageDeadline := Int

namespace sqsMessageDeadline

/-- Model of `sqsMessageDeadline.Load`: `time.Unix(atomicValue, 0)`. -/
def Load (s : sqsMessageDeadline) : GoTime := s * nsPerSec

/-- Model of `sqsMessageDeadline.Store`: stores `v.Unix()`. -/
def Store (v : GoTime) : sqsMessageDeadline := timeUnix v

/-- Model of `sqsMessageDeadline.SetDeleted`: stores the sentinel `-1`. -/
def SetDeleted : sqsMessageDeadline := -1

/-- Model of `sqsMessageDeadline.IsDeleted`: the stored value equals `-1`. -/
def IsDeleted (s : sqsMessageDeadline) : Bool := s == -1

end sqsMessageDeadline

/-- Model of `sqsMessageHandle`: message id, receipt handle, and the atomically
accessed deadline (stored in Unix seconds). -/
structure sqsMessageHandle where
  id : String
  receiptHandle : String
  deadline : sqsMessageDeadline
deriving DecidableEq, Repr

/-- Model of `sqsMessage`: an SQS message (the fields of `types.Message` that the
reader touches) bundled with its optional handle.  Pointer-typed fields of
the AWS struct are `Option`s; a `none` models a nil pointer. -/
structure sqsMessage where
  messageId : Option String
  receiptHandle : Option String
  body : Option String
  attributes : List (String × String)
  messageAttributes : List (String × Option String)
  handle : Option sqsMessageHandle
deriving DecidableEq, Repr

/-- Model of `sqsInFlightTracker`: the guarded map from message id to handle,
with the admission limit (`MaxOutstanding`) and the configured
`MessageTimeout`.  The map is modelled as an association list. -/
structure sqsInFlightTracker where
  handles : List (String × sqsMessageHandle)
  limit : Nat
  timeout : GoDuration
deriving Repr

/-- The loop body of `sqsInFlightTracker.PullToRefresh`, over the map's
entries: an entry whose `deadline.Load().Sub(now)` is below half the
timeout is skipped (`continue`); every other entry is appended to the
returned slice and its deadline is stored as `now.Add(t.timeout)`.
Go's `Duration / 2` truncates toward zero, hence `Int.tdiv`. -/
def pullToRefreshEntries (timeout : GoDuration) (now : GoTime) :
    List (String × sqsMessageHandle) →
      List sqsMessageHandle × List (String × sqsMessageHandle)
  | [] => ([], [])
  | (k, v) :: rest =>
    let (hs, st) := pullToRefreshEntries timeout now rest
    if sqsMessageDeadline.Load v.deadline - now < Int.tdiv timeout 2 then
      (hs, (k, v) :: st)
    else
      (v :: hs, (k, { v with deadline := sqsMessageDeadline.Store (now + timeout) }) :: st)

/-- Model of `sqsInFlightTracker.PullToRefresh`: returns the collected handles and
the tracker with the updated deadlines. -/
def sqsInFlightTracker.PullToRefresh (t : sqsInFlightTracker) (now : GoTime) :
    List sqsMessageHandle × sqsInFlightTracker :=
  let (hs, entries) := pullToRefreshEntries t.timeout now t.handles
  (hs, { t with handles := entries })

/-- A handle near expiry used to exercise `PullToRefresh` at
`now = 1000 s`: its deadline (1005 s) is within half of the 30 s timeout. -/
def nearExpiryHandle : sqsMessageHandle :=
  { id := "m1", receiptHandle := "r1", deadline := 1005 }

/-- A handle far from expiry at `now = 1000 s`: its deadline (1025 s) still
has 25 s ≥ 15 s left. -/
def farFromExpiryHandle : sqsMessageHandle :=
  { id := "m2", receiptHandle := "r2", deadline := 1025 }

/-- A concrete tracker state holding the two handles above, with
`MessageTimeout = 30 s`. -/
def refreshExampleTracker : sqsInFlightTracker :=
  { handles := [("m1", nearExpiryHandle), ("m2", farFromExpiryHandle)]
    limit := 1000
    timeout := 30 * nsPerSec }

/-- Claim C1: the claim states that `PullToRefresh` returns exactly the
handles with `deadline - now < MessageTimeout/2` and bumps their deadlines.
The code does the opposite: the `continue` branch fires exactly on the
near-expiry handles, so they are skipped and left untouched, while the
handles with at least half the timeout remaining are returned and bumped.
Evaluated at a concrete state: the near-expiry handle `m1` (5 s left of a
30 s timeout) satisfies the claim's selection predicate yet is not
returned and keeps its old deadline, while the far-from-expiry handle `m2`
(25 s left) is returned and bumped to `now + 30 s`. -/
theorem pullToRefresh_skips_near_expiry_eval :
    sqsInFlightTracker.PullToRefresh refreshExampleTracker (1000 * nsPerSec) =
      ([farFromExpiryHandle],
        { handles := [("m1", nearExpiryHandle),
                      ("m2", { farFromExpiryHandle with deadline := 1030 })]
          limit := 1000
          timeout := 30 * nsPerSec }) ∧
    sqsMessageDeadline.Load nearExpiryHandle.deadline - 1000 * nsPerSec <
      Int.tdiv (30 * nsPerSec) 2 := by
  constructor
  · rfl
  · decide

/-- Claim C10: the deadline field stores whole Unix seconds.  For every
instant `t`, `Store t` followed by `Load` yields `t` truncated (floored)
to second precision — at most `t`, within one second of it, and equal to
`nsPerSec * ⌊t / nsPerSec⌋`.  `SetDeleted` followed by `IsDeleted` is
`true`, and storing any instant whose Unix value is `-1` is
indistinguishable from the deleted sentinel. -/
theorem sqsMessageDeadline_store_load_spec :
    (∀ t : GoTime,
        sqsMessageDeadline.Load (sqsMessageDeadline.Store t) =
            nsPerSec * Int.fdiv t nsPerSec ∧
        sqsMessageDeadline.Load (sqsMessageDeadline.Store t) ≤ t ∧
        t < sqsMessageDeadline.Load (sqsMessageDeadline.Store t) + nsPerSec) ∧
    sqsMessageDeadline.IsDeleted sqsMessageDeadline.SetDeleted = true ∧
    (∀ t : GoTime, timeUnix t = -1 →
        sqsMessageDeadline.IsDeleted (sqsMessageDeadline.Store t) = true) := by
  refine ⟨fun t => ?_, rfl, fun t ht => ?_⟩
  · have hfd : Int.fdiv t 1000000000 = t / 1000000000 :=
      Int.fdiv_eq_ediv t (by norm_num)
    have hmod := Int.ediv_add_emod t 1000000000
    have hnonneg : (0 : Int) ≤ t % 1000000000 :=
      Int.emod_nonneg t (by norm_num)
    have hlt : t % 1000000000 < 1000000000 :=
      Int.emod_lt_of_pos t (by norm_num)
    refine ⟨?_, ?_, ?_⟩
    · show Int.fdiv t nsPerSec * nsPerSec = nsPerSec * Int.fdiv t nsPerSec
      ring
    · show Int.fdiv t nsPerSec * nsPerSec ≤ t
      simp only [nsPerSec]
      rw [hfd]
      linarith
    · show t < Int.fdiv t nsPerSec * nsPerSec + nsPerSec
      simp only [nsPerSec]
      rw [hfd]
      linarith
  · simp [sqsMessageDeadline.IsDeleted, sqsMessageDeadline.Store, ht]

/-- Witness for C10 at concrete instants: `t = 1000.5 s` floors to 1000 s,
and `t = -0.5 s` has Unix value `-1`, so storing it looks deleted. -/
theorem sqsMessageDeadline_store_load_spec_witness :
    sqsMessageDeadline.Load (sqsMessageDeadline.Store (1000500000000 : Int)) =
        nsPerSec * Int.fdiv (1000500000000 : Int) nsPerSec ∧
    timeUnix (-500000000 : Int) = -1 ∧
    sqsMessageDeadline.IsDeleted
        (sqsMessageDeadline.Store (-500000000 : Int)) = true :=
  ⟨(sqsMessageDeadline_store_load_spec.1 (1000500000000 : Int)).1,
    by decide,
    sqsMessageDeadline_store_load_spec.2.2 (-500000000 : Int) (by decide)⟩

/-- Insertion into the tracker's map: `t.handles[m.handle.id] = m.handle`.
A present key is overwritten, otherwise the entry is appended. -/
def trackerInsert (hs : List (String × sqsMessageHandle))
    (k : String) (v : sqsMessageHandle) : List (String × sqsMessageHandle) :=
  if hs.any (fun p => p.1 == k) then
    hs.map (fun p => if p.1 == k then (k, v) else p)
  else
    hs ++ [(k, v)]

/-- The insertion loop of `sqsInFlightTracker.AddNew`: every message with a
non-nil handle is inserted under its id; messages without a handle are
skipped. -/
def trackerAddNew (hs : List (String × sqsMessageHandle)) :
    List sqsMessage → List (String × sqsMessageHandle)
  | [] => hs
  | m :: rest =>
    match m.handle with
    | none => trackerAddNew hs rest
    | some h => trackerAddNew (trackerInsert hs h.id h) rest

/-- Model of `sqsInFlightTracker.Remove`: delete the entry under `id`. -/
def trackerRemove (hs : List (String × sqsMessageHandle)) (id : String) :
    List (String × sqsMessageHandle) :=
  hs.filter (fun p => p.1 != id)

/-- One transition of the in-flight tracker, as driven by its callers.
`addNew` fires only when the pre-insertion size is below the limit (the
condition-variable loop in `AddNew` has exited) and its batch holds at
most `maxB` messages; `addNewCanceled` is `AddNew` returning without
inserting because its context was cancelled while the tracker was at
capacity; `remove` and `clear` are the other two mutators. -/
inductive trackerStep (limit maxB : Nat) :
    List (String × sqsMessageHandle) → List (String × sqsMessageHandle) → Prop
  | addNew (s : List (String × sqsMessageHandle)) (batch : List sqsMessage) :
      s.length < limit → batch.length ≤ maxB →
      trackerStep limit maxB s (trackerAddNew s batch)
  | addNewCanceled (s : List (String × sqsMessageHandle)) :
      limit ≤ s.length → trackerStep limit maxB s s
  | remove (s : List (String × sqsMessageHandle)) (id : String) :
      trackerStep limit maxB s (trackerRemove s id)
  | clear (s : List (String × sqsMessageHandle)) :
      trackerStep limit maxB s []

/-- The tracker states reachable from the empty map created by `Connect`. -/
inductive trackerReachable (limit maxB : Nat) :
    List (String × sqsMessageHandle) → Prop
  | init : trackerReachable limit maxB []
  | step {s s' : List (String × sqsMessageHandle)} :
      trackerReachable limit maxB s → trackerStep limit maxB s s' →
      trackerReachable limit maxB s'

theorem trackerInsert_length_le (hs : List (String × sqsMessageHandle))
    (k : String) (v : sqsMessageHandle) :
    (trackerInsert hs k v).length ≤ hs.length + 1 := by
  unfold trackerInsert
  split
  · simp
  · simp

theorem trackerAddNew_length_le (batch : List sqsMessage) :
    ∀ hs : List (String × sqsMessageHandle),
      (trackerAddNew hs batch).length ≤ hs.length + batch.length := by
  induction batch with
  | nil => intro hs; simp [trackerAddNew]
  | cons m rest ih =>
    intro hs
    match hm : m.handle with
    | none =>
      simp only [trackerAddNew, hm]
      calc (trackerAddNew hs rest).length ≤ hs.length + rest.length := ih hs
        _ ≤ hs.length + (m :: rest).length := by simp
    | some h =>
      simp only [trackerAddNew, hm]
      calc (trackerAddNew (trackerInsert hs h.id h) rest).length
          ≤ (trackerInsert hs h.id h).length + rest.length := ih _
        _ ≤ (hs.length + 1) + rest.length := by
            have := trackerInsert_length_le hs h.id h; omega
        _ = hs.length + (m :: rest).length := by simp only [List.length_cons]; omega

/-- Claim C3: bounded occupancy.  Under the precondition that every batch
registered through `AddNew` holds at most `maxB = MaxNumberOfMessages`
messages, every reachable tracker state holds at most
`limit + maxB = MaxOutstanding + MaxNumberOfMessages` handles; insertion
happens only from states whose pre-insertion size is below the limit
(encoded in the `addNew` transition), and a cancelled `AddNew` leaves the
state unchanged. -/
theorem tracker_bounded_occupancy (limit maxB : Nat)
    (s : List (String × sqsMessageHandle))
    (h : trackerReachable limit maxB s) : s.length ≤ limit + maxB := by
  induction h with
  | init => simp
  | @step s s' hr hstep ih =>
    cases hstep with
    | addNew batch hlt hb =>
      have h1 := trackerAddNew_length_le batch s
      omega
    | addNewCanceled _h => exact ih
    | remove id =>
      have h2 : (trackerRemove s id).length ≤ s.length :=
        List.length_filter_le _ _
      omega
    | clear => simp

/-- Witness for C3: from the empty tracker with `limit = 2`, `maxB = 3`, a
batch of three messages is admitted (pre-insertion size 0 < 2), and the
resulting state of size 3 is within the bound `2 + 3`. -/
theorem tracker_bounded_occupancy_witness :
    (trackerAddNew []
      [{ messageId := some "m1", receiptHandle := some "r1", body := some "b",
         attributes := [], messageAttributes := [],
         handle := some { id := "m1", receiptHandle := "r1", deadline := 10 } },
       { messageId := some "m2", receiptHandle := some "r2", body := some "b",
         attributes := [], messageAttributes := [],
         handle := some { id := "m2", receiptHandle := "r2", deadline := 10 } },
       { messageId := some "m3", receiptHandle := some "r3", body := some "b",
         attributes := [], messageAttributes := [],
         handle := some { id := "m3", receiptHandle := "r3", deadline := 10 } }]).length
      ≤ 2 + 3 :=
  tracker_bounded_occupancy 2 3 _
    (trackerReachable.step trackerReachable.init
      (trackerStep.addNew [] _ (by decide) (by decide)))

/-- Outcome of one batch RPC against the queue service: `none` is success,
`some e` a transport error that the calling function returns at once.
Per-entry failures in a successful response are only logged by the source
and are not modelled. -/
abbrev QueueAnswer := Option String

/-- Model of `awsSQSReader.deleteMessages` past its `DeleteMessage` guard: peel up
to `maxBatchSize = 10` entries off the slice, issue one
`DeleteMessageBatch` per chunk (`q` answers each call), and return the
first transport error, if any.  The result lists the entry batches of the
RPCs actually issued, in order. -/
def deleteMessagesGo (q : List sqsMessageHandle → QueueAnswer) :
    List sqsMessageHandle → List (List sqsMessageHandle) × Option String
  | [] => ([], none)
  | m :: rest =>
    let entries := (m :: rest).take 10
    match q entries with
    | some e => ([entries], some e)
    | none =>
      let p := deleteMessagesGo q ((m :: rest).drop 10)
      (entries :: p.1, p.2)
termination_by l => l.length
decreasing_by simp; omega

/-- Model of `awsSQSReader.deleteMessages`: a no-op returning `nil` when the
`DeleteMessage` policy toggle is off. -/
def deleteMessages (deleteMessage : Bool)
    (q : List sqsMessageHandle → QueueAnswer) (msgs : List sqsMessageHandle) :
    List (List sqsMessageHandle) × Option String :=
  if deleteMessage then deleteMessagesGo q msgs else ([], none)

/-- The inner entry-collection loop of
`awsSQSReader.updateVisibilityMessages`: walk the slice, count every
visited handle as consumed, skip (`continue`) the handles whose deadline
is the `DELETED` sentinel, and stop once `maxBatchSize = 10` entries have
been collected.  Returns the collected entries and the unconsumed suffix
(`msgs[consumed:]`); `room` is the remaining entry capacity. -/
def visScan : Nat → List sqsMessageHandle →
    List sqsMessageHandle × List sqsMessageHandle
  | _, [] => ([], [])
  | room, m :: rest =>
    if sqsMessageDeadline.IsDeleted m.deadline then
      visScan room rest
    else if room ≤ 1 then ([m], rest)
    else
      let p := visScan (room - 1) rest
      (m :: p.1, p.2)

theorem visScan_snd_length_lt :
    ∀ (l : List sqsMessageHandle) (room : Nat), l ≠ [] →
      ((visScan room l).2).length < l.length := by
  intro l
  induction l with
  | nil => intro room h; exact absurd rfl h
  | cons m rest ih =>
    intro room _
    by_cases hd : sqsMessageDeadline.IsDeleted m.deadline
    · rw [visScan, if_pos hd]
      cases rest with
      | nil => simp [visScan]
      | cons a b =>
        have := ih room (by simp)
        simp only [List.length_cons] at this ⊢
        omega
    · rw [visScan, if_neg hd]
      by_cases hr : room ≤ 1
      · rw [if_pos hr]
        simp
      · rw [if_neg hr]
        cases rest with
        | nil => simp [visScan]
        | cons a b =>
          have := ih (room - 1) (by simp)
          simp only [List.length_cons] at this ⊢
          omega

/-- Model of `awsSQSReader.updateVisibilityMessages`: repeat the scan until the
slice is empty, issuing one `ChangeMessageVisibilityBatch` RPC per round
with the collected entries (all carrying the given `timeout` on the wire)
and returning the first transport error.  Note that a round whose entries
were all skipped still issues the RPC with an empty entries list. -/
def updateVisibilityMessages (q : List sqsMessageHandle → QueueAnswer)
    (timeout : Int) :
    List sqsMessageHandle → List (List sqsMessageHandle) × Option String
  | [] => ([], none)
  | m :: rest =>
    let s := visScan 10 (m :: rest)
    match q s.1 with
    | some e => ([s.1], some e)
    | none =>
      let p := updateVisibilityMessages q timeout s.2
      (s.1 :: p.1, p.2)
termination_by l => l.length
decreasing_by exact visScan_snd_length_lt (m :: rest) 10 (by simp)

/-- Model of `awsSQSReader.resetMessages`: a no-op returning `nil` when the
`ResetVisibility` policy toggle is off, otherwise a visibility update to
zero seconds. -/
def resetMessages (resetVisibility : Bool)
    (q : List sqsMessageHandle → QueueAnswer) (msgs : List sqsMessageHandle) :
    List (List sqsMessageHandle) × Option String :=
  if resetVisibility then updateVisibilityMessages q 0 msgs else ([], none)

theorem deleteMessagesGo_spec (q : List sqsMessageHandle → QueueAnswer)
    (hq : ∀ es, q es = none) :
    ∀ l : List sqsMessageHandle,
      ((deleteMessagesGo q l).1).join = l ∧
      (deleteMessagesGo q l).1.length = (l.length + 9) / 10 ∧
      (∀ b ∈ (deleteMessagesGo q l).1, b.length ≤ 10) ∧
      (deleteMessagesGo q l).2 = none
  | [] => by simp [deleteMessagesGo]
  | m :: rest => by
    have ih := deleteMessagesGo_spec q hq ((m :: rest).drop 10)
    simp only [deleteMessagesGo, hq]
    refine ⟨?_, ?_, ?_, ih.2.2.2⟩
    · simp only [List.join_cons, ih.1, List.take_append_drop]
    · simp only [List.length_cons, ih.2.1, List.length_drop]
      omega
    · intro b hb
      simp only [List.mem_cons] at hb
      cases hb with
      | inl h => subst h; simp
      | inr h => exact ih.2.2.1 b h
termination_by l => l.length
decreasing_by simp; omega

/-- Claim C8: delete batching.  When the `DeleteMessage` toggle is on and
the queue answers every call successfully, `deleteMessages` on `n` handles
issues exactly `⌈n/10⌉` `DeleteMessageBatch` RPCs, each carrying at most
10 entries, whose concatenation is the whole handle list in order; when
the toggle is off it issues no RPC at all and returns `nil`. -/
theorem deleteMessages_batching (q : List sqsMessageHandle → QueueAnswer)
    (msgs : List sqsMessageHandle) (hq : ∀ es, q es = none) :
    ((deleteMessages true q msgs).1).join = msgs ∧
    (deleteMessages true q msgs).1.length = (msgs.length + 9) / 10 ∧
    (∀ b ∈ (deleteMessages true q msgs).1, b.length ≤ 10) ∧
    (deleteMessages true q msgs).2 = none ∧
    deleteMessages false q msgs = ([], none) := by
  have h := deleteMessagesGo_spec q hq msgs
  exact ⟨h.1, h.2.1, h.2.2.1, h.2.2.2, rfl⟩

/-- Witness for C8: 12 handles are split into one RPC of 10 entries and
one of 2, covering all twelve in order; with the toggle off nothing is
issued. -/
theorem deleteMessages_batching_witness :
    ((deleteMessages true (fun _ => none)
        (List.range 12 |>.map
          (fun i => { id := toString i, receiptHandle := toString i,
                      deadline := (0 : Int) }))).1).join =
      (List.range 12 |>.map
        (fun i => { id := toString i, receiptHandle := toString i,
                    deadline := (0 : Int) })) ∧
    (deleteMessages true (fun _ => none)
        (List.range 12 |>.map
          (fun i => { id := toString i, receiptHandle := toString i,
                      deadline := (0 : Int) }))).1.length = 2 :=
  ⟨(deleteMessages_batching (fun _ => none) _ (fun _ => rfl)).1,
    (deleteMessages_batching (fun _ => none) _ (fun _ => rfl)).2.1⟩

theorem visScan_mem_not_deleted :
    ∀ (l : List sqsMessageHandle) (room : Nat) (h : sqsMessageHandle),
      h ∈ (visScan room l).1 →
      sqsMessageDeadline.IsDeleted h.deadline = false := by
  intro l
  induction l with
  | nil => intro room h hm; simp [visScan] at hm
  | cons m rest ih =>
    intro room h hm
    by_cases hd : sqsMessageDeadline.IsDeleted m.deadline
    · rw [visScan, if_pos hd] at hm
      exact ih room h hm
    · rw [visScan, if_neg hd] at hm
      by_cases hr : room ≤ 1
      · rw [if_pos hr] at hm
        simp only [List.mem_singleton] at hm
        subst hm
        exact Bool.not_eq_true _ ▸ (by simpa using hd)
      · rw [if_neg hr] at hm
        simp only [List.mem_cons] at hm
        cases hm with
        | inl he => subst he; simpa using hd
        | inr he => exact ih (room - 1) h he

theorem updateVisibilityMessages_entries_spec
    (q : List sqsMessageHandle → QueueAnswer) (timeout : Int) :
    ∀ (msgs : List sqsMessageHandle) (b : List sqsMessageHandle)
      (h : sqsMessageHandle),
      b ∈ (updateVisibilityMessages q timeout msgs).1 → h ∈ b →
      sqsMessageDeadline.IsDeleted h.deadline = false
  | [] => by intro b h hb _; simp [updateVisibilityMessages] at hb
  | m :: rest => by
    intro b h hb hh
    rw [updateVisibilityMessages] at hb
    rcases hqv : q (visScan 10 (m :: rest)).1 with _ | e
    · rw [hqv] at hb
      simp only [List.mem_cons] at hb
      cases hb with
      | inl he => subst he; exact visScan_mem_not_deleted _ _ _ hh
      | inr he =>
        exact updateVisibilityMessages_entries_spec q timeout
          (visScan 10 (m :: rest)).2 b h he hh
    · rw [hqv] at hb
      simp only [List.mem_singleton] at hb
      subst hb
      exact visScan_mem_not_deleted _ _ _ hh
termination_by msgs => msgs.length
decreasing_by exact visScan_snd_length_lt (m :: rest) 10 (by simp)

/-- Claim C7: for every handle list passed to `updateVisibilityMessages`,
no `ChangeMessageVisibilityBatch` entry is issued for a handle whose
deadline equals the `DELETED` sentinel: such handles are skipped by the
re-check before enqueueing. -/
theorem updateVisibility_skips_deleted
    (q : List sqsMessageHandle → QueueAnswer) (timeout : Int)
    (msgs : List sqsMessageHandle) (b : List sqsMessageHandle)
    (h : sqsMessageHandle)
    (hb : b ∈ (updateVisibilityMessages q timeout msgs).1) (hh : h ∈ b) :
    sqsMessageDeadline.IsDeleted h.deadline = false :=
  updateVisibilityMessages_entries_spec q timeout msgs b h hb hh

/-- Witness for C7: on a list holding a live handle and a deleted one, the
single issued batch contains exactly the live handle, whose deadline is
not the sentinel. -/
theorem updateVisibility_skips_deleted_witness :
    sqsMessageDeadline.IsDeleted
      ({ id := "m1", receiptHandle := "r1", deadline := 50 }
        : sqsMessageHandle).deadline = false :=
  updateVisibility_skips_deleted (fun _ => none) 30
    [{ id := "m1", receiptHandle := "r1", deadline := 50 },
     { id := "m2", receiptHandle := "r2", deadline := -1 }]
    [{ id := "m1", receiptHandle := "r1", deadline := 50 }]
    { id := "m1", receiptHandle := "r1", deadline := 50 }
    (by simp [updateVisibilityMessages, visScan, sqsMessageDeadline.IsDeleted])
    (by simp)

theorem visScan_all_deleted (room : Nat) :
    ∀ l : List sqsMessageHandle,
      (∀ h ∈ l, sqsMessageDeadline.IsDeleted h.deadline = true) →
      visScan room l = ([], []) := by
  intro l
  induction l with
  | nil => intro _; rfl
  | cons m rest ih =>
    intro hall
    rw [visScan, if_pos (hall m (by simp))]
    exact ih (fun h hm => hall h (List.mem_cons_of_mem m hm))

/-- Claim C9: when `updateVisibilityMessages` receives a non-empty list
whose handles all carry the `DELETED` sentinel, it still issues exactly
one `ChangeMessageVisibilityBatch` RPC whose entries list is empty, and it
returns exactly what the queue answers for that empty call. -/
theorem updateVisibility_all_deleted_one_empty_rpc
    (q : List sqsMessageHandle → QueueAnswer) (timeout : Int)
    (msgs : List sqsMessageHandle) (hne : msgs ≠ [])
    (hall : ∀ h ∈ msgs, sqsMessageDeadline.IsDeleted h.deadline = true) :
    (updateVisibilityMessages q timeout msgs).1 = [[]] ∧
    (updateVisibilityMessages q timeout msgs).2 = q [] := by
  match msgs with
  | [] => exact absurd rfl hne
  | m :: rest =>
    have hscan := visScan_all_deleted 10 (m :: rest) hall
    rw [updateVisibilityMessages]
    rcases hqv : q (visScan 10 (m :: rest)).1 with _ | e
    · rw [hscan] at hqv ⊢
      simp only [hqv]
      simp [updateVisibilityMessages, hqv]
    · rw [hscan] at hqv ⊢
      simp [hqv]

/-- Witness for C9: one all-deleted handle, with a queue that fails the
empty call with error "boom": one RPC with an empty entries list is
issued and "boom" is surfaced. -/
theorem updateVisibility_all_deleted_one_empty_rpc_witness :
    (updateVisibilityMessages
        (fun es => if es.isEmpty then some "boom" else none) 0
        [{ id := "m1", receiptHandle := "r1", deadline := -1 }]).1 = [[]] ∧
    (updateVisibilityMessages
        (fun es => if es.isEmpty then some "boom" else none) 0
        [{ id := "m1", receiptHandle := "r1", deadline := -1 }]).2 =
      some "boom" :=
  updateVisibility_all_deleted_one_empty_rpc
    (fun es => if es.isEmpty then some "boom" else none) 0
    [{ id := "m1", receiptHandle := "r1", deadline := -1 }]
    (by decide) (by decide)

/-- Model of `addSQSMetadata`: decorates a delivered message with
`sqs_message_id`, `sqs_receipt_handle`, `sqs_approximate_receive_count`
(when the server attribute is present) and every message attribute with a
string value.  The source dereferences `*sqsMsg.MessageId` and
`*sqsMsg.ReceiptHandle` unconditionally; a `none` result models the
nil-pointer dereference panic when either field is nil. -/
def addSQSMetadata (m : sqsMessage) : Option (List (String × String)) :=
  match m.messageId with
  | none => none
  | some mid =>
    match m.receiptHandle with
    | none => none
    | some rh =>
      some ([("sqs_message_id", mid), ("sqs_receipt_handle", rh)] ++
        (match m.attributes.lookup "ApproximateReceiveCount" with
         | some c => [("sqs_approximate_receive_count", c)]
         | none => []) ++
        m.messageAttributes.filterMap (fun p => p.2.map (fun v => (p.1, v))))

/-- Which of `Read`'s `select` alternatives resolves: a message arrives on
the hand-off channel, the channel is found closed, the soft-stop signal
fires, or the caller's context is done. -/
inductive ReadRecv where
  | msg (m : sqsMessage)
  | closedChan
  | softStop
  | ctxDone
deriving DecidableEq, Repr

/-- The error values `Read` can return: `service.ErrNotConnected`,
`service.ErrEndOfInput`, the caller's own `ctx.Err()`, and the literal
`context.Canceled` returned for a message with a nil body. -/
inductive ReadErrValue where
  | errNotConnected
  | errEndOfInput
  | callerCtxErr
  | contextCanceled
deriving DecidableEq, Repr

/-- A successfully delivered message: body, attached metadata, and the
handle captured by the returned `ackFn` closure. -/
structure DeliveredMsg where
  body : String
  metadata : List (String × String)
  handle : Option sqsMessageHandle
deriving DecidableEq, Repr

/-- Model of `awsSQSReader.Read`: not-connected check, the four-way `select`, the
nil-body short-circuit, then message construction and metadata
decoration.  The outer `none` models a panic inside `addSQSMetadata`. -/
def Read (sqsClientNil : Bool) (recv : ReadRecv) :
    Option (Except ReadErrValue DeliveredMsg) :=
  if sqsClientNil then some (.error .errNotConnected)
  else
    match recv with
    | .closedChan => some (.error .errEndOfInput)
    | .softStop => some (.error .errEndOfInput)
    | .ctxDone => some (.error .callerCtxErr)
    | .msg next =>
      match next.body with
      | none => some (.error .contextCanceled)
      | some b =>
        match addSQSMetadata next with
        | none => none
        | some md =>
          some (.ok { body := b, metadata := md, handle := next.handle })

/-- A message whose body pointer is nil, as handed over after a receive
with no body: `Read` short-circuits it with `context.Canceled`. -/
def nilBodyMsg : sqsMessage :=
  { messageId := some "m1", receiptHandle := some "r1", body := none,
    attributes := [], messageAttributes := [],
    handle := some { id := "m1", receiptHandle := "r1", deadline := 10 } }

/-- Counterexample to claim C5 as stated: `Read` can also surface the
fixed value `context.Canceled` for a nil-body message, while the caller's
context is not done (the receive resolved with a message, not with
`ctx.Done()`), the client is connected and no end-of-input condition
holds. -/
theorem read_error_set_counterexample :
    ¬ (∀ (sqsClientNil : Bool) (recv : ReadRecv) (e : ReadErrValue),
        Read sqsClientNil recv = some (.error e) →
        e = .errNotConnected ∨ e = .errEndOfInput ∨
          (e = .callerCtxErr ∧ recv = .ctxDone)) := by
  intro hclaim
  have h := hclaim false (.msg nilBodyMsg) .contextCanceled rfl
  rcases h with h | h | ⟨h, _⟩ <;> cases h

/-- Returns `true` iff the `select` resolved with a message whose body is nil. -/
def recvNilBodyMsg : ReadRecv → Bool
  | .msg m => m.body.isNone
  | _ => false

/-- Claim C5 (amended): the only errors `Read` returns are
`NOT_CONNECTED` (client not initialised), `END_OF_INPUT` (soft stop or
closed hand-off channel), the caller's own context error (when the
caller's context is done), and additionally the fixed `context.Canceled`
value when the received message has a nil body. -/
theorem read_error_set_amended :
    ∀ (sqsClientNil : Bool) (recv : ReadRecv) (e : ReadErrValue),
      Read sqsClientNil recv = some (.error e) →
      e = .errNotConnected ∨ e = .errEndOfInput ∨
        (e = .callerCtxErr ∧ recv = .ctxDone) ∨
        (e = .contextCanceled ∧ recvNilBodyMsg recv = true) := by
  intro c recv e h
  cases c with
  | true =>
    simp only [Read, if_pos, Option.some.injEq, Except.error.injEq] at h
    exact Or.inl h.symm
  | false =>
    cases recv with
    | closedChan =>
      simp only [Read, if_neg, Option.some.injEq, Except.error.injEq,
        Bool.false_eq_true, not_false_eq_true] at h
      exact Or.inr (Or.inl h.symm)
    | softStop =>
      simp only [Read, if_neg, Option.some.injEq, Except.error.injEq,
        Bool.false_eq_true, not_false_eq_true] at h
      exact Or.inr (Or.inl h.symm)
    | ctxDone =>
      simp only [Read, if_neg, Option.some.injEq, Except.error.injEq,
        Bool.false_eq_true, not_false_eq_true] at h
      exact Or.inr (Or.inr (Or.inl ⟨h.symm, rfl⟩))
    | msg m =>
      rcases hb : m.body with _ | b
      · right; right; right
        refine ⟨?_, by simp [recvNilBodyMsg, hb]⟩
        simp only [Read, hb, Option.some.injEq, Except.error.injEq,
          Bool.false_eq_true, not_false_eq_true, if_neg] at h
        exact h.symm
      · rcases hm : addSQSMetadata m with _ | md <;>
          simp [Read, hb, hm] at h

/-- Witness for C5 (amended) at the nil-body message: the returned error
is `context.Canceled` and falls under the added disjunct. -/
theorem read_error_set_amended_witness :
    ReadErrValue.contextCanceled = .errNotConnected ∨
    ReadErrValue.contextCanceled = .errEndOfInput ∨
    (ReadErrValue.contextCanceled = .callerCtxErr ∧
      ReadRecv.msg nilBodyMsg = .ctxDone) ∨
    (ReadErrValue.contextCanceled = .contextCanceled ∧
      recvNilBodyMsg (.msg nilBodyMsg) = true) :=
  read_error_set_amended false (.msg nilBodyMsg) .contextCanceled rfl

/-- A message with a present body but no handle.  The read loop builds a
nil handle exactly when `MessageId` or `ReceiptHandle` is nil; here the
message id is missing. -/
def noHandleMsg : sqsMessage :=
  { messageId := none, receiptHandle := some "r1", body := some "payload",
    attributes := [], messageAttributes := [], handle := none }

/-- Claim C6: the claim says a message with a present body but a nil
handle is delivered with a no-op `ackFn`.  The code instead panics before
returning: `addSQSMetadata` dereferences `*sqsMsg.MessageId` and
`*sqsMsg.ReceiptHandle` unconditionally, and a nil handle implies one of
the two pointers is nil.  Evaluated at a message with body "payload" and
no message id: `Read` hits the nil dereference (the `none` outcome)
instead of delivering. -/
theorem read_nil_handle_panics_eval :
    Read false (.msg noHandleMsg) = none ∧
    noHandleMsg.body.isSome = true ∧
    noHandleMsg.handle = none :=
  ⟨rfl, rfl, rfl⟩

/-- The wire entry `(Id, ReceiptHandle)` built from a handle for a batch
request. -/
def entryOf (h : sqsMessageHandle) : String × String := (h.id, h.receiptHandle)

/-- An outbound batch RPC issued against the queue service. -/
inductive Rpc where
  | deleteMessageBatch (entries : List (String × String))
  | changeMessageVisibilityBatch (timeout : Int) (entries : List (String × String))
deriving DecidableEq, Repr

/-- Returns `true` on `ChangeMessageVisibilityBatch` RPCs. -/
def Rpc.isChangeVisibility : Rpc → Bool
  | .changeMessageVisibilityBatch _ _ => true
  | .deleteMessageBatch _ => false

/-- Returns `true` on `DeleteMessageBatch` RPCs. -/
def Rpc.isDelete : Rpc → Bool
  | .deleteMessageBatch _ => true
  | .changeMessageVisibilityBatch _ _ => false

/-- The configuration fields of `sqsiConfig` used by the loops. -/
structure sqsiConfig where
  url : String
  waitTimeSeconds : Int
  deleteMessage : Bool
  resetVisibility : Bool
  maxNumberOfMessages : Nat
  maxOutstanding : Nat
  messageTimeout : GoDuration
deriving Repr

/-- The `DeleteMessageBatch` RPCs issued by one `deleteMessages` call. -/
def deleteRpcs (conf : sqsiConfig) (q : List sqsMessageHandle → QueueAnswer)
    (msgs : List sqsMessageHandle) : List Rpc :=
  ((deleteMessages conf.deleteMessage q msgs).1).map
    (fun b => .deleteMessageBatch (b.map entryOf))

/-- The `ChangeMessageVisibilityBatch(timeout=0)` RPCs issued by one
`resetMessages` call. -/
def resetRpcs (conf : sqsiConfig) (q : List sqsMessageHandle → QueueAnswer)
    (msgs : List sqsMessageHandle) : List Rpc :=
  ((resetMessages conf.resetVisibility q msgs).1).map
    (fun b => .changeMessageVisibilityBatch 0 (b.map entryOf))

/-- Which of the three `select` alternatives fires inside the `ackFn`
closure returned by `Read`: the caller's context is done, the soft-stop
signal has fired, or the ack/nack channel send succeeds.  Go picks any
ready alternative. -/
inductive ackFnSelect where
  | rctxDone
  | softStopFired
  | chanSend
deriving DecidableEq, Repr

/-- What one `ackFn(rctx, res)` call does. -/
inductive ackFnOutcome where
  | noop
  | callerCtxError
  | rpcsIssued (rpcs : List Rpc) (err : Option String)
  | enqueuedAck (h : sqsMessageHandle)
  | enqueuedNack (h : sqsMessageHandle)
deriving DecidableEq, Repr

/-- The `ackFn` closure returned by `Read`: a nil captured handle returns
nil at once; `res == nil` selects among returning `rctx.Err()`, a direct
single-handle `deleteMessages` under soft stop, and the ack-channel send;
`res != nil` symmetrically with `resetMessages` and the nack channel. -/
def ackFn (conf : sqsiConfig) (q : List sqsMessageHandle → QueueAnswer)
    (mHandle : Option sqsMessageHandle) (res : Option String)
    (pick : ackFnSelect) : ackFnOutcome :=
  match mHandle with
  | none => .noop
  | some h =>
    match res, pick with
    | none, .rctxDone => .callerCtxError
    | none, .softStopFired =>
      let p := deleteMessages conf.deleteMessage q [h]
      .rpcsIssued (p.1.map (fun b => .deleteMessageBatch (b.map entryOf))) p.2
    | none, .chanSend => .enqueuedAck h
    | some _, .rctxDone => .callerCtxError
    | some _, .softStopFired =>
      let p := resetMessages conf.resetVisibility q [h]
      .rpcsIssued
        (p.1.map (fun b => .changeMessageVisibilityBatch 0 (b.map entryOf))) p.2
    | some _, .chanSend => .enqueuedNack h

/-- The RPCs an `ackFn` outcome carries. -/
def ackFnOutcome.rpcs : ackFnOutcome → List Rpc
  | .rpcsIssued rpcs _ => rpcs
  | _ => []

/-- The effect of `h.deadline.SetDeleted()` on every alias of the handle
in a slice: the stored sentinel is visible through the tracker, the
pending slices and any captured refresh snapshot alike.  Aliases are
identified by message id. -/
def setDeletedIn (id : String) (l : List sqsMessageHandle) :
    List sqsMessageHandle :=
  l.map (fun h =>
    if h.id = id then { h with deadline := sqsMessageDeadline.SetDeleted }
    else h)

/-- The same store, through the tracker map's values. -/
def setDeletedInTracker (id : String)
    (l : List (String × sqsMessageHandle)) :
    List (String × sqsMessageHandle) :=
  l.map (fun p =>
    if p.2.id = id then
      (p.1, { p.2 with deadline := sqsMessageDeadline.SetDeleted })
    else p)

/-- Model of `flushFinishedHandles` inside `ackLoop`: nothing on an empty slice,
otherwise `deleteMessages` when erasing, `resetMessages` when nacking;
transport errors are only logged.  Returns the issued RPCs. -/
def flushFinishedHandles (conf : sqsiConfig)
    (q : List sqsMessageHandle → QueueAnswer)
    (handles : List sqsMessageHandle) (erase : Bool) : List Rpc :=
  if handles.length = 0 then []
  else if erase then deleteRpcs conf q handles
  else resetRpcs conf q handles

/-- Model of `refreshCurrentHandles` inside `ackLoop` (with the try-lock held):
pull the handles to refresh, and unless none were pulled, issue one
`updateVisibilityMessages` pass with the configured timeout in whole wire
seconds (`int(MessageTimeout.Seconds())`, a truncation).  Returns the
issued RPCs and the updated tracker map. -/
def refreshCurrentHandles (conf : sqsiConfig)
    (q : List sqsMessageHandle → QueueAnswer)
    (tracker : List (String × sqsMessageHandle)) (now : GoTime) :
    List Rpc × List (String × sqsMessageHandle) :=
  let t : sqsInFlightTracker :=
    { handles := tracker, limit := conf.maxOutstanding,
      timeout := conf.messageTimeout }
  let p := t.PullToRefresh now
  if p.1.length = 0 then ([], p.2.handles)
  else
    let secs := Int.tdiv conf.messageTimeout nsPerSec
    ((updateVisibilityMessages q secs p.1).1.map
        (fun b => .changeMessageVisibilityBatch secs (b.map entryOf)),
      p.2.handles)

/-- The state threaded through the `ackLoop` event loop: the two pending
slices, the in-flight tracker map, and the trace of RPCs issued so far. -/
structure ackLoopState where
  pendingAcks : List sqsMessageHandle
  pendingNacks : List sqsMessageHandle
  tracker : List (String × sqsMessageHandle)
  trace : List Rpc
deriving Repr

/-- One event selected by the `ackLoop`: an ack-channel receive, a
nack-channel receive, or a 1-second ticker fire (`refreshLockAcquired`
records whether the refresh try-lock was obtained). -/
inductive ackEvent where
  | ack (h : sqsMessageHandle)
  | nack (h : sqsMessageHandle)
  | tick (now : GoTime) (refreshLockAcquired : Bool)
deriving Repr

/-- One iteration of the `ackLoop` `select`.  An ack appends the handle
to `pendingAcks`, removes its id from the tracker, marks the deadline
deleted, and flushes `pendingAcks` when it has reached
`MaxNumberOfMessages` — without clearing the slice.  A nack is symmetric
into `pendingNacks`.  A tick unconditionally flushes both slices (again
without clearing them) and runs the refresh pass when the try-lock was
obtained. -/
def ackStep (conf : sqsiConfig) (q : List sqsMessageHandle → QueueAnswer)
    (s : ackLoopState) : ackEvent → ackLoopState
  | .ack h =>
    let pendingAcks := s.pendingAcks ++ [h]
    let tracker := trackerRemove s.tracker h.id
    let pendingAcks := setDeletedIn h.id pendingAcks
    let pendingNacks := setDeletedIn h.id s.pendingNacks
    let tracker := setDeletedInTracker h.id tracker
    if conf.maxNumberOfMessages ≤ pendingAcks.length then
      { pendingAcks := pendingAcks, pendingNacks := pendingNacks,
        tracker := tracker,
        trace := s.trace ++ flushFinishedHandles conf q pendingAcks true }
    else
      { pendingAcks := pendingAcks, pendingNacks := pendingNacks,
        tracker := tracker, trace := s.trace }
  | .nack h =>
    let pendingNacks := s.pendingNacks ++ [h]
    let tracker := trackerRemove s.tracker h.id
    let pendingAcks := setDeletedIn h.id s.pendingAcks
    let pendingNacks := setDeletedIn h.id pendingNacks
    let tracker := setDeletedInTracker h.id tracker
    if conf.maxNumberOfMessages ≤ pendingNacks.length then
      { pendingAcks := pendingAcks, pendingNacks := pendingNacks,
        tracker := tracker,
        trace := s.trace ++ flushFinishedHandles conf q pendingNacks false }
    else
      { pendingAcks := pendingAcks, pendingNacks := pendingNacks,
        tracker := tracker, trace := s.trace }
  | .tick now refreshLockAcquired =>
    let trace := s.trace ++ flushFinishedHandles conf q s.pendingAcks true
      ++ flushFinishedHandles conf q s.pendingNacks false
    if refreshLockAcquired then
      let r := refreshCurrentHandles conf q s.tracker now
      { s with trace := trace ++ r.1, tracker := r.2 }
    else
      { s with trace := trace }

/-- The tail of `ackLoop` after the soft-stop break: one final flush of
both pending slices, then the deferred `inFlightTracker.Clear()`. -/
def ackLoopFinish (conf : sqsiConfig)
    (q : List sqsMessageHandle → QueueAnswer) (s : ackLoopState) :
    ackLoopState :=
  { s with
    trace := s.trace ++ flushFinishedHandles conf q s.pendingAcks true
      ++ flushFinishedHandles conf q s.pendingNacks false
    tracker := [] }

/-- A whole `ackLoop` execution: the events served before the soft stop,
then the final flush. -/
def ackLoopRun (conf : sqsiConfig)
    (q : List sqsMessageHandle → QueueAnswer) (events : List ackEvent)
    (s : ackLoopState) : ackLoopState :=
  ackLoopFinish conf q (events.foldl (ackStep conf q) s)

theorem flushFinishedHandles_erase_all_delete (conf : sqsiConfig)
    (q : List sqsMessageHandle → QueueAnswer)
    (handles : List sqsMessageHandle) :
    (flushFinishedHandles conf q handles true).all Rpc.isDelete = true := by
  unfold flushFinishedHandles deleteRpcs
  split
  · rfl
  · simp [List.all_eq_true, Rpc.isDelete]

theorem flushFinishedHandles_noerase_all_vis (conf : sqsiConfig)
    (q : List sqsMessageHandle → QueueAnswer)
    (handles : List sqsMessageHandle) :
    (flushFinishedHandles conf q handles false).all
      Rpc.isChangeVisibility = true := by
  unfold flushFinishedHandles resetRpcs
  split
  · rfl
  · simp [List.all_eq_true, Rpc.isChangeVisibility]

/-- Claim C4: ack routing.  With both policy toggles on, an
`ackFn(rctx, nil)` call never produces a `ChangeMessageVisibilityBatch`
for its handle — its outcome is the caller's context error, a direct
delete under soft stop (whose RPCs are all deletes), or the ack-channel
send, never a nack enqueue; and the ack loop's handling of an ack-channel
receive emits only `DeleteMessageBatch` RPCs.  Symmetrically,
`ackFn(rctx, err≠nil)` never produces a `DeleteMessageBatch` — direct
visibility reset under soft stop, nack-channel send, never an ack
enqueue; and the loop's handling of a nack emits only
`ChangeMessageVisibilityBatch` RPCs. -/
theorem ack_routing (conf : sqsiConfig)
    (q : List sqsMessageHandle → QueueAnswer)
    (hdel : conf.deleteMessage = true)
    (hres : conf.resetVisibility = true) :
    (∀ (h : sqsMessageHandle) (pick : ackFnSelect),
        ((ackFn conf q (some h) none pick).rpcs).all
            (fun r => !r.isChangeVisibility) = true ∧
        ∀ h2, ackFn conf q (some h) none pick ≠ .enqueuedNack h2) ∧
    (∀ (h : sqsMessageHandle) (e : String) (pick : ackFnSelect),
        ((ackFn conf q (some h) (some e) pick).rpcs).all
            (fun r => !r.isDelete) = true ∧
        ∀ h2, ackFn conf q (some h) (some e) pick ≠ .enqueuedAck h2) ∧
    (∀ (s : ackLoopState) (h : sqsMessageHandle),
        (((ackStep conf q s (.ack h)).trace).drop s.trace.length).all
          Rpc.isDelete = true) ∧
    (∀ (s : ackLoopState) (h : sqsMessageHandle),
        (((ackStep conf q s (.nack h)).trace).drop s.trace.length).all
          Rpc.isChangeVisibility = true) := by
  refine ⟨fun h pick => ⟨?_, fun h2 => ?_⟩,
    fun h e pick => ⟨?_, fun h2 => ?_⟩, fun s h => ?_, fun s h => ?_⟩
  · cases pick <;>
      simp [ackFn, ackFnOutcome.rpcs, List.all_eq_true, Rpc.isChangeVisibility]
  · cases pick <;> simp [ackFn]
  · cases pick <;>
      simp [ackFn, ackFnOutcome.rpcs, List.all_eq_true, Rpc.isDelete]
  · cases pick <;> simp [ackFn]
  · simp only [ackStep]
    split
    · simp only [List.drop_left]
      exact flushFinishedHandles_erase_all_delete conf q _
    · simp
  · simp only [ackStep]
    split
    · simp only [List.drop_left]
      exact flushFinishedHandles_noerase_all_vis conf q _
    · simp

/-- The configuration used by the routing witness: both toggles on, batch
threshold 1 so that a single ack (or nack) already flushes. -/
def routingConf : sqsiConfig :=
  { url := "queue", waitTimeSeconds := 0, deleteMessage := true,
    resetVisibility := true, maxNumberOfMessages := 1,
    maxOutstanding := 1000, messageTimeout := 30 * nsPerSec }

/-- A handle used by the routing witness. -/
def routingHandle : sqsMessageHandle :=
  { id := "m1", receiptHandle := "r1", deadline := 1030 }

/-- The empty ack-loop state used by the routing witness. -/
def routingState : ackLoopState :=
  { pendingAcks := [], pendingNacks := [], tracker := [], trace := [] }

/-- Witness for C4 at a concrete handle, with soft stop firing for the
direct paths and a threshold-triggering ack and nack for the loop paths. -/
theorem ack_routing_witness :
    ((ackFn routingConf (fun _ => none) (some routingHandle) none
        .softStopFired).rpcs).all (fun r => !r.isChangeVisibility) = true ∧
    ((ackFn routingConf (fun _ => none) (some routingHandle) (some "boom")
        .softStopFired).rpcs).all (fun r => !r.isDelete) = true ∧
    (((ackStep routingConf (fun _ => none) routingState
        (.ack routingHandle)).trace).drop routingState.trace.length).all
      Rpc.isDelete = true ∧
    (((ackStep routingConf (fun _ => none) routingState
        (.nack routingHandle)).trace).drop routingState.trace.length).all
      Rpc.isChangeVisibility = true :=
  ⟨((ack_routing routingConf (fun _ => none) rfl rfl).1 routingHandle
      .softStopFired).1,
    ((ack_routing routingConf (fun _ => none) rfl rfl).2.1 routingHandle
      "boom" .softStopFired).1,
    (ack_routing routingConf (fun _ => none) rfl rfl).2.2.1 routingState
      routingHandle,
    (ack_routing routingConf (fun _ => none) rfl rfl).2.2.2 routingState
      routingHandle⟩

/-- The happy-path configuration: defaults, with both toggles on and
`MaxNumberOfMessages = 10`. -/
def happyPathConf : sqsiConfig :=
  { url := "queue", waitTimeSeconds := 0, deleteMessage := true,
    resetVisibility := true, maxNumberOfMessages := 10,
    maxOutstanding := 1000, messageTimeout := 30 * nsPerSec }

/-- Handle of message `m1` in the happy-path scenario. -/
def happyH1 : sqsMessageHandle :=
  { id := "m1", receiptHandle := "rh1", deadline := 1030 }

/-- Handle of message `m2` in the happy-path scenario. -/
def happyH2 : sqsMessageHandle :=
  { id := "m2", receiptHandle := "rh2", deadline := 1030 }

/-- Handle of message `m3` in the happy-path scenario. -/
def happyH3 : sqsMessageHandle :=
  { id := "m3", receiptHandle := "rh3", deadline := 1030 }

/-- The ack-loop state right after the receive of the three messages:
tracker holds all three handles, nothing pending, no RPC issued. -/
def happyInitial : ackLoopState :=
  { pendingAcks := [], pendingNacks := [],
    tracker := [("m1", happyH1), ("m2", happyH2), ("m3", happyH3)],
    trace := [] }

/-- Claim C2: the claim expects exactly one `DeleteMessageBatch` with all
three ids over the whole loop lifetime.  The code never clears
`pendingAcks` after flushing it, so after the three acks, one periodic
tick plus the final shutdown flush issue TWO `DeleteMessageBatch` RPCs,
each carrying all three ids — every acked handle appears in two delete
entries.  Evaluated on the event list
`[ack m1, ack m2, ack m3, tick, soft stop]` with an always-successful
queue. -/
theorem ackLoop_happy_path_two_delete_batches_eval :
    (ackLoopRun happyPathConf (fun _ => none)
        [.ack happyH1, .ack happyH2, .ack happyH3,
         .tick (1000 * nsPerSec) true]
        happyInitial).trace =
      [.deleteMessageBatch [("m1", "rh1"), ("m2", "rh2"), ("m3", "rh3")],
       .deleteMessageBatch [("m1", "rh1"), ("m2", "rh2"), ("m3", "rh3")]] := by
  simp [ackLoopRun, ackLoopFinish, ackStep, flushFinishedHandles,
    deleteRpcs, resetRpcs, deleteMessages, deleteMessagesGo, resetMessages,
    updateVisibilityMessages, setDeletedIn, setDeletedInTracker,
    trackerRemove, refreshCurrentHandles, sqsInFlightTracker.PullToRefresh,
    pullToRefreshEntries, entryOf, happyPathConf, happyH1, happyH2, happyH3,
    happyInitial, sqsMessageDeadline.SetDeleted, sqsMessageDeadline.Store,
    sqsMessageDeadline.Load, timeUnix, nsPerSec, List.foldl]
